import Mathlib

/-!
Shallow embedding of the static analyzer core of the Python Code Tutor
repository (`backend/analyzer/static_checks.py` and the parse-dispatch part of
`backend/analyzer/analyzer.py`), together with theorems checking the
natural-language specification against it.

The Python `ast` node shapes that the analyzer's visitors handle are modelled
as inductive types (`Expr`, `Stmt`); node kinds the source only reaches through
`ast.NodeVisitor.generic_visit` are traversed child-by-child in the source's
field order.  Python float literals are idealised as exact rationals (`Rat`);
Python `bool` values are kept distinct but compare equal to integers the way
`isinstance(b, int)` and `b == 0` behave in the source.  Source-text snippet
extraction (`ast.get_source_segment`) is modelled as an abstract function
`seg : Expr → Option String`, and the interpreter-supplied builtin-name set
(`dir(builtins)`) as an abstract list parameter, matching the spec's "external
environment" reading of both.
-/

namespace PyTutor

/-- Expression contexts (`ast.Load` / `ast.Store` / `ast.Del`). -/
inductive Ctx
| load
| store
| del
deriving DecidableEq, Repr

/-- Values of `ast.Constant` nodes.  Floats are idealised as rationals. -/
inductive PyConst
| intC (n : Int)
| floatC (q : Rat)
| boolC (b : Bool)
| noneC
| strC (s : String)
deriving DecidableEq, Repr

/-- Binary operators (`ast.Add`, `ast.Div`, `ast.FloorDiv`, `ast.Mod`, ...). -/
inductive BinOpKind
| add
| sub
| mult
| div
| floorDiv
| mod
| pow
deriving DecidableEq, Repr

/-- Comparison operators (`ast.Eq`, `ast.NotEq`, `ast.Is`, ...). -/
inductive CmpOp
| eq
| notEq
| lt
| ltE
| gt
| gtE
| isOp
| isNot
| inOp
| notIn
deriving DecidableEq, Repr

/-- An `ast.alias` entry of an import statement. -/
structure ImportAlias where
  name : String
  asname : Option String
deriving DecidableEq, Repr

/-- Python expressions, covering the node shapes the analyzer inspects. -/
inductive Expr
| name (id : String) (ctx : Ctx) (lineno : Nat)
| const (value : PyConst) (lineno : Nat)
| binOp (left : Expr) (op : BinOpKind) (right : Expr) (lineno : Nat)
| compare (left : Expr) (ops : List CmpOp) (comparators : List Expr) (lineno : Nat)
| call (func : Expr) (args : List Expr) (lineno : Nat)
| tuple (elts : List Expr) (ctx : Ctx) (lineno : Nat)
| listLit (elts : List Expr) (ctx : Ctx) (lineno : Nat)
| starred (value : Expr) (ctx : Ctx) (lineno : Nat)
deriving Repr

/-- The `ast.arguments` record of a function definition, keeping the parameter
names the analyzer reads (`posonlyargs`, `args`, `kwonlyargs`, `vararg`,
`kwarg`).  Defaults and parameter annotations are never visited by
`UndefinedNameVisitor.visit_FunctionDef` (it returns without `generic_visit`),
so they carry no analyzer-relevant structure and are omitted. -/
structure FuncArgs where
  posonlyargs : List String
  args : List String
  kwonlyargs : List String
  vararg : Option String
  kwarg : Option String
deriving DecidableEq, Repr

/-- Python statements, covering the node shapes the analyzer inspects. -/
inductive Stmt
| assign (targets : List Expr) (value : Expr) (lineno : Nat)
| annAssign (target : Expr) (ann : Expr) (value : Option Expr) (lineno : Nat)
| augAssign (target : Expr) (op : BinOpKind) (value : Expr) (lineno : Nat)
| forS (target : Expr) (iter : Expr) (body : List Stmt) (orelse : List Stmt) (lineno : Nat)
| whileS (test : Expr) (body : List Stmt) (orelse : List Stmt) (lineno : Nat)
| withS (items : List (Expr × Option Expr)) (body : List Stmt) (lineno : Nat)
| funcDef (name : String) (fargs : FuncArgs) (body : List Stmt) (decorators : List Expr) (lineno : Nat)
| classDef (name : String) (bases : List Expr) (decorators : List Expr) (body : List Stmt) (lineno : Nat)
| importS (names : List ImportAlias) (lineno : Nat)
| importFrom (names : List ImportAlias) (lineno : Nat)
| exprS (value : Expr) (lineno : Nat)
| returnS (value : Option Expr) (lineno : Nat)
| ifS (test : Expr) (body : List Stmt) (orelse : List Stmt) (lineno : Nat)
| passS (lineno : Nat)
deriving Repr

/-- A Python module is its list of top-level statements; `ast.NodeVisitor`
has no `visit_Module` handler in the source, so visiting a module is
`generic_visit`, i.e. visiting the body statements in order. -/
abbrev Module := List Stmt

/-- The `RuntimeIssue` dataclass of `static_checks.py`. -/
structure RuntimeIssue where
  type : String
  line : Option Nat
  snippet : Option String
  why : String
  severity : String := "warning"
deriving DecidableEq, Repr

/-- Abstract model of `ast.get_source_segment(source, node)`. -/
abbrev Seg := Expr → Option String

mutual

/-- The `_add_target_names(target, names)`: the names a binding target introduces
(`Name`, and recursively `Tuple`/`List` elements and `Starred` values); other
shapes contribute nothing. -/
def targetNames : Expr → List String
  | .name id _ _ => [id]
  | .tuple elts _ _ => targetNamesList elts
  | .listLit elts _ _ => targetNamesList elts
  | .starred v _ _ => targetNames v
  | _ => []

/-- The `targetNames` mapped over a list of target elements. -/
def targetNamesList : List Expr → List String
  | [] => []
  | e :: es => targetNames e ++ targetNamesList es

end

/-- The mutable state of `UndefinedNameVisitor`: the scope stack (head of the
list is the top frame, i.e. Python's `scopes[-1]`), the `(name, line)`
deduplication set `_seen`, and the accumulated issues. -/
structure UVState where
  scopes : List (List String)
  seen : List (String × Nat)
  issues : List RuntimeIssue
deriving Repr

/-- The `UndefinedNameVisitor._push_scope`. -/
def pushScope (s : UVState) : UVState := { s with scopes := [] :: s.scopes }

/-- The `UndefinedNameVisitor._pop_scope`: removes the top frame unless it is the
sole remaining frame. -/
def popScope (s : UVState) : UVState :=
  if 1 < s.scopes.length then { s with scopes := s.scopes.tail } else s

/-- The `UndefinedNameVisitor._is_defined`: the name is in some frame. -/
def isDefined (s : UVState) (n : String) : Bool :=
  s.scopes.any (fun fr => fr.contains n)

/-- The `UndefinedNameVisitor._define`: adds a nonempty name to the top frame
(the source's two branches both add; the underscore test is vestigial). -/
def define (n : String) (s : UVState) : UVState :=
  if n = "" then s
  else
    match s.scopes with
    | [] => s
    | fr :: rest => { s with scopes := (n :: fr) :: rest }

/-- Direct mutation of the top frame, as `_add_target_names(t, self.scopes[-1])`
performs (no emptiness filtering). -/
def addTargets (ns : List String) (s : UVState) : UVState :=
  match s.scopes with
  | [] => s
  | fr :: rest => { s with scopes := (ns ++ fr) :: rest }

/-- A single apostrophe character, for building the source's messages. -/
def sq : String := String.singleton (Char.ofNat 39)

/-- The message of an undefined-variable issue, as built in
`_report_undefined`. -/
def whyMsg (n : String) : String :=
  "Variable " ++ sq ++ n ++ sq ++ " might not be defined before it is used."

/-- The `UndefinedNameVisitor._report_undefined`, for a `Name` node in `Load`
context: skip builtins and the keyword constants, skip visible names, skip
`(name, line)` pairs already seen, otherwise record the pair and append one
issue. -/
def reportUndefined (builtins : List String) (seg : Seg) (e : Expr)
    (id : String) (line : Nat) (s : UVState) : UVState :=
  if builtins.contains id || (id == "None" || id == "True" || id == "False") then s
  else if isDefined s id then s
  else if (id, line) ∈ s.seen then s
  else
    { s with
      seen := (id, line) :: s.seen
      issues := s.issues ++
        [{ type := "Potential issue", line := some line, snippet := seg e,
           why := whyMsg id, severity := "warning" }] }

/-- The `visit_FunctionDef`'s parameter registration: positional-only, positional
and keyword-only parameter names, then `vararg`, then `kwarg`. -/
def defineArgs (fa : FuncArgs) (s : UVState) : UVState :=
  let s1 := (fa.posonlyargs ++ fa.args ++ fa.kwonlyargs).foldl (fun st a => define a st) s
  let s2 := match fa.vararg with | some v => define v s1 | none => s1
  match fa.kwarg with | some k => define k s2 | none => s2

/-- The `visit_Import`'s name for one alias: the `asname` if given, else the first
dotted component of the module name. -/
def importName (a : ImportAlias) : String :=
  a.asname.getD ((a.name.splitOn (".")).headD a.name)

mutual

/-- The traversal of `UndefinedNameVisitor` over an expression.  `Name` nodes
in `Load` context are reported; all other expression kinds have no handler in
the source and are traversed by `generic_visit` in AST field order. -/
def uvExpr (b : List String) (seg : Seg) : Expr → UVState → UVState
  | .name id ctx line, s =>
      if ctx = Ctx.load then reportUndefined b seg (.name id ctx line) id line s else s
  | .const _ _, s => s
  | .binOp l _ r _, s => uvExpr b seg r (uvExpr b seg l s)
  | .compare l _ comps _, s => uvExprs b seg comps (uvExpr b seg l s)
  | .call f args _, s => uvExprs b seg args (uvExpr b seg f s)
  | .tuple elts _ _, s => uvExprs b seg elts s
  | .listLit elts _ _, s => uvExprs b seg elts s
  | .starred v _ _, s => uvExpr b seg v s

/-- The `uvExpr` over a list of child expressions, in order. -/
def uvExprs (b : List String) (seg : Seg) : List Expr → UVState → UVState
  | [], s => s
  | e :: es, s => uvExprs b seg es (uvExpr b seg e s)

/-- The `uvExpr` over an optional child expression. -/
def uvOptExpr (b : List String) (seg : Seg) : Option Expr → UVState → UVState
  | none, s => s
  | some e, s => uvExpr b seg e s

/-- The traversal of `UndefinedNameVisitor` over one statement, mirroring the
source's `visit_*` methods (and `generic_visit` field order for `Expr`,
`Return` and `If` statements, which have no handler). -/
def uvStmt (b : List String) (seg : Seg) : Stmt → UVState → UVState
  | .assign targets value _, s =>
      uvExpr b seg value (targets.foldl (fun st t => addTargets (targetNames t) st) s)
  | .annAssign target ann value _, s =>
      uvOptExpr b seg value (uvExpr b seg ann (addTargets (targetNames target) s))
  | .augAssign target _ value _, s =>
      uvExpr b seg value (addTargets (targetNames target) s)
  | .forS target iter body orelse _, s =>
      uvStmts b seg orelse
        (uvStmts b seg body (addTargets (targetNames target) (uvExpr b seg iter s)))
  | .whileS test body orelse _, s =>
      uvStmts b seg orelse (uvStmts b seg body (uvExpr b seg test s))
  | .withS items body _, s => uvStmts b seg body (uvWithItems b seg items s)
  | .funcDef n fargs body decos _, s =>
      popScope (uvStmts b seg body
        (uvExprs b seg decos (defineArgs fargs (pushScope (define n s)))))
  | .classDef n bases decos body _, s =>
      popScope (uvStmts b seg body
        (uvExprs b seg decos (uvExprs b seg bases (pushScope (define n s)))))
  | .importS names _, s => names.foldl (fun st a => define (importName a) st) s
  | .importFrom names _, s =>
      names.foldl
        (fun st a => if a.name = "*" then st else define (a.asname.getD a.name) st) s
  | .exprS e _, s => uvExpr b seg e s
  | .returnS v _, s => uvOptExpr b seg v s
  | .ifS test body orelse _, s =>
      uvStmts b seg orelse (uvStmts b seg body (uvExpr b seg test s))
  | .passS _, s => s

/-- The `uvStmt` over a statement list, in order. -/
def uvStmts (b : List String) (seg : Seg) : List Stmt → UVState → UVState
  | [], s => s
  | st :: sts, s => uvStmts b seg sts (uvStmt b seg st s)

/-- The `visit_With`'s handling of `withitem`s: visit the context expression, then
register the bound names of the optional target. -/
def uvWithItems (b : List String) (seg : Seg) : List (Expr × Option Expr) → UVState → UVState
  | [], s => s
  | (ctxExpr, optVars) :: rest, s =>
      uvWithItems b seg rest
        (match optVars with
         | none => uvExpr b seg ctxExpr s
         | some tv => addTargets (targetNames tv) (uvExpr b seg ctxExpr s))

end

/-- The visitor's initial state: one empty (module/global) frame. -/
def initUVState : UVState := { scopes := [[]], seen := [], issues := [] }

/-- The issue list produced by the undefined-reference detector on a module. -/
def uvIssues (b : List String) (seg : Seg) (m : Module) : List RuntimeIssue :=
  (uvStmts b seg m initUVState).issues

/-! ## RuntimePatternVisitor -/

/-- The `Expr.lineno` as a projection (every node carries its line). -/
def Expr.lineno : Expr → Nat
  | .name _ _ l => l
  | .const _ l => l
  | .binOp _ _ _ l => l
  | .compare _ _ _ l => l
  | .call _ _ l => l
  | .tuple _ _ l => l
  | .listLit _ _ l => l
  | .starred _ _ l => l


/-- The `RuntimePatternVisitor._is_constant_zero`: a `Constant` node whose value is
an `int` or `float` equal to `0`.  Python's `bool` is a subclass of `int`, so
`False` also satisfies the test. -/
def _is_constant_zero : Expr → Bool
  | .const (.intC n) _ => n == 0
  | .const (.floatC q) _ => q == 0
  | .const (.boolC b) _ => b == false
  | _ => false

/-- The operator test of `visit_BinOp`: `isinstance(node.op, (Div, FloorDiv, Mod))`. -/
def isDivLike : BinOpKind → Bool
  | .div => true
  | .floorDiv => true
  | .mod => true
  | _ => false

/-- The iterated-expression test of `RuntimePatternVisitor.visit_For`:
`isinstance(node.iter, Constant) and isinstance(node.iter.value, int)`
(`bool` being an `int` subclass in Python). -/
def isIntConstant : Expr → Bool
  | .const (.intC _) _ => true
  | .const (.boolC _) _ => true
  | _ => false

/-- The match of `visit_Compare`: exactly one operator, which is `Eq` or
`NotEq`, and the first comparator is the literal `None`.  (A parsed `Compare`
node always has as many comparators as operators.) -/
def isNoneCompare : List CmpOp → List Expr → Bool
  | [op0], c0 :: _ =>
      (op0 == CmpOp.eq || op0 == CmpOp.notEq) &&
        (match c0 with | .const .noneC _ => true | _ => false)
  | _, _ => false

/-- The issue `visit_BinOp` appends for a zero divisor. -/
def divZeroIssue (seg : Seg) (e : Expr) (line : Nat) : RuntimeIssue :=
  { type := "ZeroDivisionError", line := some line, snippet := seg e,
    why := "This expression can divide by zero.", severity := "warning" }

/-- The issue `visit_For` appends for an integer-literal loop target. -/
def intIterIssue (seg : Seg) (iter : Expr) (line : Nat) : RuntimeIssue :=
  { type := "TypeError", line := some line, snippet := seg iter,
    why := "You are trying to iterate over an int, which is not iterable.",
    severity := "warning" }

/-- The issue `visit_Compare` appends for an `==`/`!=` comparison against
`None`. -/
def noneCompareIssue (seg : Seg) (e : Expr) (line : Nat) : RuntimeIssue :=
  { type := "BestPractice", line := some line, snippet := seg e,
    why := "Use `is None` / `is not None` for None checks.", severity := "info" }

mutual

/-- The issue list `RuntimePatternVisitor` accumulates over one expression, in
traversal order: each handler appends its own issue (if its shape matches)
before `generic_visit` walks the children in AST field order. -/
def rpExpr (seg : Seg) : Expr → List RuntimeIssue
  | .name _ _ _ => []
  | .const _ _ => []
  | .binOp l op r line =>
      (if isDivLike op && _is_constant_zero r
       then [divZeroIssue seg (.binOp l op r line) line] else []) ++
      rpExpr seg l ++ rpExpr seg r
  | .compare l ops comps line =>
      (if isNoneCompare ops comps
       then [noneCompareIssue seg (.compare l ops comps line) line] else []) ++
      rpExpr seg l ++ rpExprs seg comps
  | .call f args _ => rpExpr seg f ++ rpExprs seg args
  | .tuple elts _ _ => rpExprs seg elts
  | .listLit elts _ _ => rpExprs seg elts
  | .starred v _ _ => rpExpr seg v

/-- The `rpExpr` over a child list, in order. -/
def rpExprs (seg : Seg) : List Expr → List RuntimeIssue
  | [] => []
  | e :: es => rpExpr seg e ++ rpExprs seg es

/-- The `rpExpr` over an optional child. -/
def rpOptExpr (seg : Seg) : Option Expr → List RuntimeIssue
  | none => []
  | some e => rpExpr seg e

/-- The issue list `RuntimePatternVisitor` accumulates over one statement.
Only `For` has a handler; every other statement kind is `generic_visit`, which
walks the children in AST field order (for `FunctionDef`: body before
decorators; for `ClassDef`: bases, body, decorators). -/
def rpStmt (seg : Seg) : Stmt → List RuntimeIssue
  | .assign targets value _ => rpExprs seg targets ++ rpExpr seg value
  | .annAssign target ann value _ =>
      rpExpr seg target ++ rpExpr seg ann ++ rpOptExpr seg value
  | .augAssign target _ value _ => rpExpr seg target ++ rpExpr seg value
  | .forS target iter body orelse _ =>
      (if isIntConstant iter then [intIterIssue seg iter iter.lineno] else []) ++
      rpExpr seg target ++ rpExpr seg iter ++ rpStmts seg body ++ rpStmts seg orelse
  | .whileS test body orelse _ =>
      rpExpr seg test ++ rpStmts seg body ++ rpStmts seg orelse
  | .withS items body _ => rpWithItems seg items ++ rpStmts seg body
  | .funcDef _ _ body decos _ => rpStmts seg body ++ rpExprs seg decos
  | .classDef _ bases decos body _ =>
      rpExprs seg bases ++ rpStmts seg body ++ rpExprs seg decos
  | .importS _ _ => []
  | .importFrom _ _ => []
  | .exprS e _ => rpExpr seg e
  | .returnS v _ => rpOptExpr seg v
  | .ifS test body orelse _ =>
      rpExpr seg test ++ rpStmts seg body ++ rpStmts seg orelse
  | .passS _ => []

/-- The `rpStmt` over a statement list, in order. -/
def rpStmts (seg : Seg) : List Stmt → List RuntimeIssue
  | [] => []
  | st :: sts => rpStmt seg st ++ rpStmts seg sts

/-- The `generic_visit` over `withitem`s: context expression, then optional
target. -/
def rpWithItems (seg : Seg) : List (Expr × Option Expr) → List RuntimeIssue
  | [] => []
  | (ctxExpr, optVars) :: rest =>
      rpExpr seg ctxExpr ++ rpOptExpr seg optVars ++ rpWithItems seg rest

end

/-! ## ComplexityVisitor -/

/-- The mutable state of `ComplexityVisitor`. -/
structure CVState where
  loop_depth : Nat
  max_loop_depth : Nat
  has_recursion : Bool
  function_name : Option String
deriving DecidableEq, Repr

mutual

/-- The `ast.walk`-style search of `_check_recursion`: does the expression contain
a `Call` whose callee is a bare `Name` equal to `fn`? -/
def exprSelfCall (fn : String) : Expr → Bool
  | .name _ _ _ => false
  | .const _ _ => false
  | .binOp l _ r _ => exprSelfCall fn l || exprSelfCall fn r
  | .compare l _ comps _ => exprSelfCall fn l || exprsSelfCall fn comps
  | .call f args _ =>
      (match f with | .name id _ _ => id == fn | _ => false) ||
      exprSelfCall fn f || exprsSelfCall fn args
  | .tuple elts _ _ => exprsSelfCall fn elts
  | .listLit elts _ _ => exprsSelfCall fn elts
  | .starred v _ _ => exprSelfCall fn v

/-- The `exprSelfCall` over a list. -/
def exprsSelfCall (fn : String) : List Expr → Bool
  | [] => false
  | e :: es => exprSelfCall fn e || exprsSelfCall fn es

/-- The `exprSelfCall` over an optional expression. -/
def optExprSelfCall (fn : String) : Option Expr → Bool
  | none => false
  | some e => exprSelfCall fn e

/-- The `ast.walk`-style search over a statement's whole subtree (nested
definitions included, as `ast.walk` yields every descendant). -/
def stmtSelfCall (fn : String) : Stmt → Bool
  | .assign targets value _ => exprsSelfCall fn targets || exprSelfCall fn value
  | .annAssign target ann value _ =>
      exprSelfCall fn target || exprSelfCall fn ann || optExprSelfCall fn value
  | .augAssign target _ value _ => exprSelfCall fn target || exprSelfCall fn value
  | .forS target iter body orelse _ =>
      exprSelfCall fn target || exprSelfCall fn iter ||
      stmtsSelfCall fn body || stmtsSelfCall fn orelse
  | .whileS test body orelse _ =>
      exprSelfCall fn test || stmtsSelfCall fn body || stmtsSelfCall fn orelse
  | .withS items body _ => withItemsSelfCall fn items || stmtsSelfCall fn body
  | .funcDef _ _ body decos _ => stmtsSelfCall fn body || exprsSelfCall fn decos
  | .classDef _ bases decos body _ =>
      exprsSelfCall fn bases || exprsSelfCall fn decos || stmtsSelfCall fn body
  | .importS _ _ => false
  | .importFrom _ _ => false
  | .exprS e _ => exprSelfCall fn e
  | .returnS v _ => optExprSelfCall fn v
  | .ifS test body orelse _ =>
      exprSelfCall fn test || stmtsSelfCall fn body || stmtsSelfCall fn orelse
  | .passS _ => false

/-- The `stmtSelfCall` over a list. -/
def stmtsSelfCall (fn : String) : List Stmt → Bool
  | [] => false
  | st :: sts => stmtSelfCall fn st || stmtsSelfCall fn sts

/-- The `stmtSelfCall` over `withitem`s. -/
def withItemsSelfCall (fn : String) : List (Expr × Option Expr) → Bool
  | [] => false
  | (ctxExpr, optVars) :: rest =>
      exprSelfCall fn ctxExpr || optExprSelfCall fn optVars ||
      withItemsSelfCall fn rest

end

/-- The `ComplexityVisitor._check_recursion(node)` with `self.function_name = fn`:
a `None` function name matches no bare callee (Python `id == None` is false). -/
def checkRecursion (fn : Option String) (node : Stmt) : Bool :=
  match fn with
  | none => false
  | some f => stmtSelfCall f node

mutual

/-- The traversal of `ComplexityVisitor` over one statement.  Only `For`,
`While` and `FunctionDef` have handlers; expressions never change the state,
so `generic_visit` on the other statement kinds reduces to walking their
nested statement lists. -/
def cvStmt : Stmt → CVState → CVState
  | .forS _ _ body orelse _, st =>
      let st1 : CVState :=
        { st with loop_depth := st.loop_depth + 1,
                  max_loop_depth := max st.max_loop_depth (st.loop_depth + 1) }
      let st2 := cvStmts orelse (cvStmts body st1)
      { st2 with loop_depth := st2.loop_depth - 1 }
  | .whileS _ body orelse _, st =>
      let st1 : CVState :=
        { st with loop_depth := st.loop_depth + 1,
                  max_loop_depth := max st.max_loop_depth (st.loop_depth + 1) }
      let st2 := cvStmts orelse (cvStmts body st1)
      { st2 with loop_depth := st2.loop_depth - 1 }
  | .funcDef n fargs body decos line, st =>
      let st1 : CVState := { st with function_name := some n }
      let st2 : CVState :=
        { st1 with has_recursion :=
            st1.has_recursion ||
              checkRecursion st1.function_name (.funcDef n fargs body decos line) }
      let st3 := cvStmts body st2
      { st3 with function_name := st.function_name }
  | .classDef _ _ _ body _, st => cvStmts body st
  | .withS _ body _, st => cvStmts body st
  | .ifS _ body orelse _, st => cvStmts orelse (cvStmts body st)
  | .assign _ _ _, st => st
  | .annAssign _ _ _ _, st => st
  | .augAssign _ _ _ _, st => st
  | .importS _ _, st => st
  | .importFrom _ _, st => st
  | .exprS _ _, st => st
  | .returnS _ _, st => st
  | .passS _, st => st

/-- The `cvStmt` over a statement list, in order. -/
def cvStmts : List Stmt → CVState → CVState
  | [], st => st
  | s :: ss, st => cvStmts ss (cvStmt s st)

end

/-- The visitor's initial state. -/
def initCVState : CVState :=
  { loop_depth := 0, max_loop_depth := 0, has_recursion := false,
    function_name := none }

/-- The `_derive_time_complexity`. -/
def _derive_time_complexity (c : CVState) : String :=
  if c.has_recursion then "Depends on recursion depth; often O(2^n) for naive recursion"
  else if c.max_loop_depth = 0 then "Roughly O(n)"
  else if c.max_loop_depth = 1 then "Roughly O(n)"
  else if c.max_loop_depth = 2 then "Approximately O(n^2)"
  else "Approximately O(n^k), k > 2"

/-- The `_derive_space_complexity`. -/
def _derive_space_complexity (c : CVState) : String :=
  if c.has_recursion then "O(recursion depth)"
  else "O(1) to O(n) typical for this file"

/-! ## Aggregation (`run_static_checks` and `analyze_python_code`) -/

/-- The `complexity` record `run_static_checks` builds. -/
structure Complexity where
  time : String
  space : String
deriving DecidableEq, Repr

/-- The result dictionary of `run_static_checks`. -/
structure CheckResult where
  issues : List RuntimeIssue
  complexity : Complexity
  recursion : Bool
  max_loop_depth : Nat
deriving Repr

/-- The `run_static_checks(source)`, for an already parsed module (the `ast.parse`
call is the external parser boundary): run the undefined-name visitor, extend
with the pattern visitor's issues, then derive the complexity record from the
complexity visitor. -/
def run_static_checks (b : List String) (seg : Seg) (m : Module) : CheckResult :=
  let c := cvStmts m initCVState
  { issues := uvIssues b seg m ++ rpStmts seg m
    complexity := { time := _derive_time_complexity c, space := _derive_space_complexity c }
    recursion := c.has_recursion
    max_loop_depth := c.max_loop_depth }

/-- A structured parse failure, as raised by the external parser
(`SyntaxError` with optional line number and offending text). -/
structure ParseFailure where
  lineno : Option Nat
  msg : String
  text : Option String
deriving DecidableEq, Repr

/-- The part of the analysis report determined by the analyzer core: the
issue clusters and the optional complexity profile.  The surrounding
LLM-feedback shaping of `analyze_python_code` is the out-of-scope external
feedback composer. -/
structure AnalysisReport where
  issues : List RuntimeIssue
  complexity : Option Complexity
deriving Repr

/-- The single issue built in `analyze_python_code`'s `except SyntaxError`
branch: line is `exc.lineno or 0`, snippet is `exc.text.strip()` when the
text is non-empty (Python truthiness), message is `exc.msg`. -/
def syntaxErrorIssue (exc : ParseFailure) : RuntimeIssue :=
  { type := "SyntaxError", line := some (exc.lineno.getD 0),
    snippet := match exc.text with
               | some t => if t = "" then none else some t.trim
               | none => none,
    why := exc.msg, severity := "error" }

/-- The core dispatch of `analyze_python_code` (analyzer.py lines 34-61):
given the external parser's outcome, either short-circuit with the single
`SyntaxError` issue and no complexity (`static_context` stays
`{"issues": [], "complexity": None}`), or take issues and complexity from
`run_static_checks`. -/
def analyze_python_code (b : List String) (seg : Seg) :
    Except ParseFailure Module → AnalysisReport
  | .error exc => { issues := [syntaxErrorIssue exc], complexity := none }
  | .ok m =>
      let r := run_static_checks b seg m
      { issues := r.issues, complexity := some r.complexity }

/-! ## Specification-side definitions and proof infrastructure -/

mutual

/-- Specification-side recursion trigger, following the spec's words: some
function definition in the statement has a call to its own bare name anywhere
in its subtree.  Compared below with the visitor's `has_recursion` flag. -/
def specStmtRec : Stmt → Bool
  | .funcDef n fargs body decos line =>
      stmtSelfCall n (.funcDef n fargs body decos line) || specStmtsRec body
  | .forS _ _ body orelse _ => specStmtsRec body || specStmtsRec orelse
  | .whileS _ body orelse _ => specStmtsRec body || specStmtsRec orelse
  | .withS _ body _ => specStmtsRec body
  | .classDef _ _ _ body _ => specStmtsRec body
  | .ifS _ body orelse _ => specStmtsRec body || specStmtsRec orelse
  | .assign _ _ _ => false
  | .annAssign _ _ _ _ => false
  | .augAssign _ _ _ _ => false
  | .importS _ _ => false
  | .importFrom _ _ => false
  | .exprS _ _ => false
  | .returnS _ _ => false
  | .passS _ => false

/-- The `specStmtRec` over a list of statements. -/
def specStmtsRec : List Stmt → Bool
  | [] => false
  | st :: sts => specStmtRec st || specStmtsRec sts

end

/-- The deduplication invariant of the undefined-name visitor: issue keys
`(why, line)` are pairwise distinct, and every recorded issue's key is
registered in the `_seen` set with its variable name. -/
def UVInv (s : UVState) : Prop :=
  (s.issues.map (fun i => (i.why, i.line))).Nodup ∧
  ∀ i ∈ s.issues, ∃ n l, i.why = whyMsg n ∧ i.line = some l ∧ (n, l) ∈ s.seen

/-- A state predicate preserved by each primitive state operation of
`UndefinedNameVisitor`; such a predicate is preserved by the whole
traversal. -/
structure PrimPres (P : UVState → Prop) : Prop where
  push : ∀ s, P s → P (pushScope s)
  pop : ∀ s, P s → P (popScope s)
  dfn : ∀ n s, P s → P (define n s)
  add : ∀ ns s, P s → P (addTargets ns s)
  rep : ∀ b seg e id line s, P s → P (reportUndefined b seg e id line s)

/-- Trivial snippet extractor, used to evaluate the analyzer on closed
inputs. -/
def seg0 : Seg := fun _ => none

/-- A `for i in xs:` loop around a body, for closed complexity tests. -/
def loopOver (body : List Stmt) : Stmt :=
  .forS (.name ("i") .store 1) (.name ("xs") .load 1) body [] 1

/-- One loop: max nesting depth 1. -/
def mLin : Module := [loopOver [.passS 1]]

/-- Doubly nested loops: max nesting depth 2. -/
def mQuad : Module := [loopOver [loopOver [.passS 1]]]

/-- Triply nested loops: max nesting depth 3. -/
def mCube : Module := [loopOver [loopOver [loopOver [.passS 1]]]]

/-- A directly recursive function next to triply nested loops. -/
def mRecDemo : Module :=
  .funcDef ("f") ⟨[], [], [], none, none⟩
    [.returnS (some (.call (.name ("f") .load 2) [] 2)) 2] [] 1 :: mCube

/-- The expression statement `x + x`, reading an undefined name twice on one
line. -/
def mDedupDemo : Module :=
  [.exprS (.binOp (.name ("x") .load 1) .add (.name ("x") .load 1) 1) 1]

/-! ## Helper lemmas -/

/-- Distinct variable names produce distinct undefined-variable messages. -/
theorem whyMsg_injective {a b : String} (h : whyMsg a = whyMsg b) : a = b := by
  have h2 := congrArg String.data h
  simp only [whyMsg, String.data_append] at h2
  exact String.ext
    (List.append_cancel_left (List.append_cancel_right (List.append_cancel_right h2)))

/-- The `_report_undefined` never touches the scope stack. -/
theorem reportUndefined_scopes (b : List String) (seg : Seg) (e : Expr)
    (id : String) (line : Nat) (s : UVState) :
    (reportUndefined b seg e id line s).scopes = s.scopes := by
  unfold reportUndefined
  repeat' split
  all_goals rfl

/-- A visible name is never reported. -/
theorem reportUndefined_of_defined {s : UVState} {id : String}
    (h : isDefined s id = true) (b : List String) (seg : Seg) (e : Expr)
    (line : Nat) : reportUndefined b seg e id line s = s := by
  unfold reportUndefined
  split
  any_goals rfl

/-- The `_pop_scope` changes only the scope stack. -/
theorem popScope_issues (s : UVState) : (popScope s).issues = s.issues := by
  unfold popScope
  split
  all_goals rfl

/-- The `_pop_scope` changes only the scope stack. -/
theorem popScope_seen (s : UVState) : (popScope s).seen = s.seen := by
  unfold popScope
  split
  all_goals rfl

/-- The `_define` changes only the scope stack. -/
theorem define_issues (n : String) (s : UVState) : (define n s).issues = s.issues := by
  unfold define
  repeat' split
  all_goals rfl

/-- The `_define` changes only the scope stack. -/
theorem define_seen (n : String) (s : UVState) : (define n s).seen = s.seen := by
  unfold define
  repeat' split
  all_goals rfl

/-- The `_define` keeps the number of frames. -/
theorem define_scopes_length (n : String) (s : UVState) :
    (define n s).scopes.length = s.scopes.length := by
  unfold define
  repeat' split
  all_goals simp_all

/-- Target registration changes only the scope stack. -/
theorem addTargets_issues (ns : List String) (s : UVState) :
    (addTargets ns s).issues = s.issues := by
  unfold addTargets
  split
  all_goals rfl

/-- Target registration changes only the scope stack. -/
theorem addTargets_seen (ns : List String) (s : UVState) :
    (addTargets ns s).seen = s.seen := by
  unfold addTargets
  split
  all_goals rfl

/-- Target registration keeps the number of frames. -/
theorem addTargets_scopes_length (ns : List String) (s : UVState) :
    (addTargets ns s).scopes.length = s.scopes.length := by
  unfold addTargets
  split
  · rfl
  · simp_all

/-- A predicate that only reads `issues` and `seen` transfers along operations
that keep both. -/
theorem UVInv_congr {s s' : UVState} (h1 : s'.issues = s.issues)
    (h2 : s'.seen = s.seen) (h : UVInv s) : UVInv s' := by
  unfold UVInv at *
  rw [h1, h2]
  exact h

/-- Preservation through a left fold whose step preserves the predicate. -/
theorem foldl_pres {α : Type} (P : UVState → Prop) (f : UVState → α → UVState)
    (hf : ∀ s a, P s → P (f s a)) :
    ∀ (l : List α) (s : UVState), P s → P (l.foldl f s) := by
  intro l
  induction l with
  | nil => intro s hs; simpa using hs
  | cons a as ih =>
      intro s hs
      simp only [List.foldl_cons]
      exact ih _ (hf s a hs)

/-- Parameter registration preserves any primitive-closed predicate. -/
theorem defineArgs_pres (P : UVState → Prop) (h : PrimPres P) (fa : FuncArgs)
    (s : UVState) (hs : P s) : P (defineArgs fa s) := by
  have h1 := foldl_pres P (fun st a => define a st)
    (fun st a hst => h.dfn a st hst) (fa.posonlyargs ++ fa.args ++ fa.kwonlyargs) s hs
  unfold defineArgs
  cases fa.vararg <;> cases fa.kwarg <;> simp only <;>
    first
      | exact h1
      | exact h.dfn _ _ h1
      | exact h.dfn _ _ (h.dfn _ _ h1)

/-- Expression traversal preserves any primitive-closed predicate. -/
theorem uvExpr_pres (P : UVState → Prop) (h : PrimPres P) (b : List String)
    (seg : Seg) : ∀ (e : Expr) (s : UVState), P s → P (uvExpr b seg e s) := by
  refine uvExpr.induct b seg
    (fun e s => P s → P (uvExpr b seg e s))
    (fun es s => P s → P (uvExprs b seg es s))
    ?_ ?_ ?_ ?_ ?_ ?_ ?_ ?_ ?_ ?_ ?_
  · intro id line s hs
    simpa only [uvExpr, if_pos rfl] using h.rep b seg _ id line s hs
  · intro id ctx line s hctx hs
    simpa only [uvExpr, if_neg hctx] using hs
  · intro v l s hs
    simpa only [uvExpr] using hs
  · intro l op r l4 s ih1 ih2 hs
    simpa only [uvExpr] using ih2 (ih1 hs)
  · intro l ops comps l4 s ih1 ih2 hs
    simpa only [uvExpr] using ih2 (ih1 hs)
  · intro f args l4 s ih1 ih2 hs
    simpa only [uvExpr] using ih2 (ih1 hs)
  · intro elts ctx l4 s ih hs
    simpa only [uvExpr] using ih hs
  · intro elts ctx l4 s ih hs
    simpa only [uvExpr] using ih hs
  · intro v ctx l4 s ih hs
    simpa only [uvExpr] using ih hs
  · intro s hs
    simpa only [uvExprs] using hs
  · intro e es s ih1 ih2 hs
    simpa only [uvExprs] using ih2 (ih1 hs)

/-- Expression-list traversal preserves any primitive-closed predicate. -/
theorem uvExprs_pres (P : UVState → Prop) (h : PrimPres P) (b : List String)
    (seg : Seg) : ∀ (es : List Expr) (s : UVState), P s → P (uvExprs b seg es s) := by
  intro es
  induction es with
  | nil => intro s hs; simpa only [uvExprs] using hs
  | cons e es ih =>
      intro s hs
      simpa only [uvExprs] using ih _ (uvExpr_pres P h b seg e s hs)

/-- Optional-expression traversal preserves any primitive-closed predicate. -/
theorem uvOptExpr_pres (P : UVState → Prop) (h : PrimPres P) (b : List String)
    (seg : Seg) : ∀ (v : Option Expr) (s : UVState), P s → P (uvOptExpr b seg v s) := by
  intro v s hs
  cases v with
  | none => simpa only [uvOptExpr] using hs
  | some e => simpa only [uvOptExpr] using uvExpr_pres P h b seg e s hs

/-- The `withitem` traversal preserves any primitive-closed predicate. -/
theorem uvWithItems_pres (P : UVState → Prop) (h : PrimPres P) (b : List String)
    (seg : Seg) : ∀ (items : List (Expr × Option Expr)) (s : UVState),
      P s → P (uvWithItems b seg items s) := by
  intro items
  induction items with
  | nil => intro s hs; simpa only [uvWithItems] using hs
  | cons item rest ih =>
      intro s hs
      obtain ⟨ctxExpr, optVars⟩ := item
      cases optVars with
      | none =>
          simpa only [uvWithItems] using ih _ (uvExpr_pres P h b seg ctxExpr s hs)
      | some tv =>
          simpa only [uvWithItems] using
            ih _ (h.add _ _ (uvExpr_pres P h b seg ctxExpr s hs))

/-- Statement traversal preserves any primitive-closed predicate. -/
theorem uvStmt_pres (P : UVState → Prop) (h : PrimPres P) (b : List String)
    (seg : Seg) : ∀ (t : Stmt) (s : UVState), P s → P (uvStmt b seg t s) := by
  refine uvStmt.induct b seg
    (fun t s => P s → P (uvStmt b seg t s))
    (fun l s => P s → P (uvStmts b seg l s))
    ?_ ?_ ?_ ?_ ?_ ?_ ?_ ?_ ?_ ?_ ?_ ?_ ?_ ?_ ?_ ?_
  · intro targets value l4 s hs
    simpa only [uvStmt] using uvExpr_pres P h b seg value _
      (foldl_pres P _ (fun st t hst => h.add (targetNames t) st hst) targets s hs)
  · intro target ann value l4 s hs
    simpa only [uvStmt] using uvOptExpr_pres P h b seg value _
      (uvExpr_pres P h b seg ann _ (h.add _ _ hs))
  · intro target op value l4 s hs
    simpa only [uvStmt] using uvExpr_pres P h b seg value _ (h.add _ _ hs)
  · intro target iter body orelse l4 s ih1 ih2 hs
    simpa only [uvStmt] using ih2 (ih1 (h.add _ _ (uvExpr_pres P h b seg iter s hs)))
  · intro test body orelse l4 s ih1 ih2 hs
    simpa only [uvStmt] using ih2 (ih1 (uvExpr_pres P h b seg test s hs))
  · intro items body l4 s ih hs
    simpa only [uvStmt] using ih (uvWithItems_pres P h b seg items s hs)
  · intro n fargs body decos l4 s ih hs
    simpa only [uvStmt] using h.pop _
      (ih (uvExprs_pres P h b seg decos _
        (defineArgs_pres P h fargs _ (h.push _ (h.dfn n s hs)))))
  · intro n bases decos body l4 s ih hs
    simpa only [uvStmt] using h.pop _
      (ih (uvExprs_pres P h b seg decos _
        (uvExprs_pres P h b seg bases _ (h.push _ (h.dfn n s hs)))))
  · intro names l4 s hs
    simpa only [uvStmt] using foldl_pres P _
      (fun st a hst => h.dfn (importName a) st hst) names s hs
  · intro names l4 s hs
    refine (?_ : P (uvStmt b seg (.importFrom names l4) s))
    simp only [uvStmt]
    refine foldl_pres P _ ?_ names s hs
    intro st a hst
    split
    · exact hst
    · exact h.dfn _ st hst
  · intro e l4 s hs
    simpa only [uvStmt] using uvExpr_pres P h b seg e s hs
  · intro v l4 s hs
    simpa only [uvStmt] using uvOptExpr_pres P h b seg v s hs
  · intro test body orelse l4 s ih1 ih2 hs
    simpa only [uvStmt] using ih2 (ih1 (uvExpr_pres P h b seg test s hs))
  · intro l4 s hs
    simpa only [uvStmt] using hs
  · intro s hs
    simpa only [uvStmts] using hs
  · intro st sts s ih1 ih2 hs
    simpa only [uvStmts] using ih2 (ih1 hs)

/-- Statement-list traversal preserves any primitive-closed predicate. -/
theorem uvStmts_pres (P : UVState → Prop) (h : PrimPres P) (b : List String)
    (seg : Seg) : ∀ (l : List Stmt) (s : UVState), P s → P (uvStmts b seg l s) := by
  intro l
  induction l with
  | nil => intro s hs; simpa only [uvStmts] using hs
  | cons t ts ih =>
      intro s hs
      simpa only [uvStmts] using ih _ (uvStmt_pres P h b seg t s hs)

/-- The nonempty-scope-stack predicate is closed under the primitives. -/
theorem primPres_scopes : PrimPres (fun s => 0 < s.scopes.length) := by
  constructor
  · intro s hs
    simp [pushScope]
  · intro s hs
    unfold popScope
    split
    · rename_i hlen
      simp only [List.length_tail]
      omega
    · exact hs
  · intro n s hs
    simpa only [define_scopes_length] using hs
  · intro ns s hs
    simpa only [addTargets_scopes_length] using hs
  · intro b seg e id line s hs
    simpa only [reportUndefined_scopes] using hs

/-- The deduplication invariant is closed under the primitives. -/
theorem primPres_UVInv : PrimPres UVInv := by
  constructor
  · intro s hs
    exact UVInv_congr rfl rfl hs
  · intro s hs
    exact UVInv_congr (popScope_issues s) (popScope_seen s) hs
  · intro n s hs
    exact UVInv_congr (define_issues n s) (define_seen n s) hs
  · intro ns s hs
    exact UVInv_congr (addTargets_issues ns s) (addTargets_seen ns s) hs
  · intro b seg e id line s hs
    unfold reportUndefined
    repeat' split
    any_goals exact hs
    rename_i hseen
    constructor
    · have hnd := hs.1
      simp only [List.map_append, List.map_cons, List.map_nil]
      rw [List.nodup_append]
      refine ⟨hnd, List.nodup_singleton _, ?_⟩
      intro a ha hb
      simp only [List.mem_singleton] at hb
      subst hb
      obtain ⟨i, hi, hkey⟩ := List.mem_map.1 ha
      obtain ⟨n, l, hwhy, hline, hmem⟩ := hs.2 i hi
      have h1 : i.why = whyMsg id := congrArg Prod.fst hkey
      have h2 : i.line = some line := congrArg Prod.snd hkey
      have hn : n = id := whyMsg_injective (hwhy ▸ h1)
      have hl : l = line := Option.some.inj (hline ▸ h2)
      exact hseen (hn ▸ hl ▸ hmem)
    · intro i hi
      rcases List.mem_append.1 hi with hi | hi
      · obtain ⟨n, l, h1, h2, h3⟩ := hs.2 i hi
        exact ⟨n, l, h1, h2, List.mem_cons_of_mem _ h3⟩
      · simp only [List.mem_singleton] at hi
        subst hi
        exact ⟨id, line, rfl, rfl, List.mem_cons_self _ _⟩

/-- The initial visitor state satisfies the deduplication invariant. -/
theorem initUVState_inv : UVInv initUVState := by
  constructor
  · simp [initUVState]
  · intro i hi
    simp [initUVState] at hi

mutual

/-- The global recursion flag accumulated by `ComplexityVisitor` over one
statement is the previous flag or-ed with the spec-side recursion trigger. -/
theorem cvStmt_has_recursion : ∀ (t : Stmt) (st : CVState),
    (cvStmt t st).has_recursion = (st.has_recursion || specStmtRec t)
  | .forS target iter body orelse l4, st => by
      simp only [cvStmt, specStmtRec]
      rw [cvStmts_has_recursion orelse, cvStmts_has_recursion body]
      simp [Bool.or_assoc]
  | .whileS test body orelse l4, st => by
      simp only [cvStmt, specStmtRec]
      rw [cvStmts_has_recursion orelse, cvStmts_has_recursion body]
      simp [Bool.or_assoc]
  | .funcDef n fargs body decos l4, st => by
      simp only [cvStmt, specStmtRec, checkRecursion]
      rw [cvStmts_has_recursion body]
      simp [Bool.or_assoc]
  | .classDef n bases decos body l4, st => by
      simp only [cvStmt, specStmtRec]
      rw [cvStmts_has_recursion body]
  | .withS items body l4, st => by
      simp only [cvStmt, specStmtRec]
      rw [cvStmts_has_recursion body]
  | .ifS test body orelse l4, st => by
      simp only [cvStmt, specStmtRec]
      rw [cvStmts_has_recursion orelse, cvStmts_has_recursion body]
      simp [Bool.or_assoc]
  | .assign _ _ _, st => by simp [cvStmt, specStmtRec]
  | .annAssign _ _ _ _, st => by simp [cvStmt, specStmtRec]
  | .augAssign _ _ _ _, st => by simp [cvStmt, specStmtRec]
  | .importS _ _, st => by simp [cvStmt, specStmtRec]
  | .importFrom _ _, st => by simp [cvStmt, specStmtRec]
  | .exprS _ _, st => by simp [cvStmt, specStmtRec]
  | .returnS _ _, st => by simp [cvStmt, specStmtRec]
  | .passS _, st => by simp [cvStmt, specStmtRec]

/-- The `cvStmt_has_recursion` over a statement list. -/
theorem cvStmts_has_recursion : ∀ (l : List Stmt) (st : CVState),
    (cvStmts l st).has_recursion = (st.has_recursion || specStmtsRec l)
  | [], st => by simp [cvStmts, specStmtsRec]
  | t :: ts, st => by
      simp only [cvStmts, specStmtsRec]
      rw [cvStmts_has_recursion ts, cvStmt_has_recursion t]
      simp [Bool.or_assoc]

end

/-- Registering targets on a nonempty stack prepends them to the top frame. -/
theorem addTargets_scopes {ns : List String} {s : UVState} {fr : List String}
    {rest : List (List String)} (h : s.scopes = fr :: rest) :
    (addTargets ns s).scopes = (ns ++ fr) :: rest := by
  unfold addTargets
  split
  · rename_i heq
    rw [h] at heq
    exact absurd heq (by simp)
  · rename_i fr' rest' heq
    rw [h] at heq
    injection heq with h1 h2
    subst h1
    subst h2
    rfl

/-- A name in the top frame is visible. -/
theorem isDefined_of_mem_head {x : String} {s : UVState} {fr : List String}
    {rest : List (List String)} (h : s.scopes = fr :: rest) (hx : x ∈ fr) :
    isDefined s x = true := by
  unfold isDefined
  rw [h]
  simp only [List.any_cons, Bool.or_eq_true]
  exact Or.inl (by simpa using List.elem_iff.2 hx)

/-! ## Claim theorems -/

/-- Claim C1: for an input whose parse fails, the analysis report contains
exactly one finding, of kind `SyntaxError` with severity `error`, whose line
and message are taken from the parse failure, and no complexity profile; for
an input that parses successfully, the report contains exactly one complexity
profile. -/
theorem claim_C1 (b : List String) (seg : Seg) :
    (∀ exc : ParseFailure,
        (analyze_python_code b seg (Except.error exc)).issues = [syntaxErrorIssue exc] ∧
        (syntaxErrorIssue exc).type = "SyntaxError" ∧
        (syntaxErrorIssue exc).severity = "error" ∧
        (syntaxErrorIssue exc).line = some (exc.lineno.getD 0) ∧
        (syntaxErrorIssue exc).why = exc.msg ∧
        (analyze_python_code b seg (Except.error exc)).complexity = none) ∧
    (∀ m : Module,
        (analyze_python_code b seg (Except.ok m)).complexity =
          some (run_static_checks b seg m).complexity) :=
  ⟨fun _ => ⟨rfl, rfl, rfl, rfl, rfl, rfl⟩, fun _ => rfl⟩

/-- Claim C2: the complexity profile follows first-match classification: any
function whose subtree calls its own bare name forces the recursion labels for
time and space regardless of loop nesting; otherwise max loop depth 0 or 1
gives the linear label, exactly 2 the quadratic label, and 3 or more the
higher-degree polynomial label. -/
theorem claim_C2 (b : List String) (seg : Seg) (m : Module) :
    (specStmtsRec m = true →
        (run_static_checks b seg m).complexity =
          { time := "Depends on recursion depth; often O(2^n) for naive recursion",
            space := "O(recursion depth)" }) ∧
    (specStmtsRec m = false →
        ((cvStmts m initCVState).max_loop_depth = 0 ∨
            (cvStmts m initCVState).max_loop_depth = 1 →
          (run_static_checks b seg m).complexity.time = "Roughly O(n)") ∧
        ((cvStmts m initCVState).max_loop_depth = 2 →
          (run_static_checks b seg m).complexity.time = "Approximately O(n^2)") ∧
        (3 ≤ (cvStmts m initCVState).max_loop_depth →
          (run_static_checks b seg m).complexity.time = "Approximately O(n^k), k > 2")) := by
  have hrec : (cvStmts m initCVState).has_recursion = specStmtsRec m := by
    rw [cvStmts_has_recursion]
    simp [initCVState]
  constructor
  · intro h
    simp [run_static_checks, _derive_time_complexity, _derive_space_complexity, hrec, h]
  · intro h
    refine ⟨?_, ?_, ?_⟩
    · rintro (h0 | h1)
      · simp [run_static_checks, _derive_time_complexity, hrec, h, h0]
      · simp [run_static_checks, _derive_time_complexity, hrec, h, h1]
    · intro h2
      simp [run_static_checks, _derive_time_complexity, hrec, h, h2]
    · intro h3
      have h0 : ¬(cvStmts m initCVState).max_loop_depth = 0 := by omega
      have h1 : ¬(cvStmts m initCVState).max_loop_depth = 1 := by omega
      have h2 : ¬(cvStmts m initCVState).max_loop_depth = 2 := by omega
      simp [run_static_checks, _derive_time_complexity, hrec, h, h0, h1, h2]

/-- Witness for C2: a recursive module next to triple loops gets the recursion
labels; one, two and three nested loops get the linear, quadratic and
higher-degree labels. -/
theorem claim_C2_witness :
    (run_static_checks [] seg0 mRecDemo).complexity =
      { time := "Depends on recursion depth; often O(2^n) for naive recursion",
        space := "O(recursion depth)" } ∧
    (run_static_checks [] seg0 mLin).complexity.time = "Roughly O(n)" ∧
    (run_static_checks [] seg0 mQuad).complexity.time = "Approximately O(n^2)" ∧
    (run_static_checks [] seg0 mCube).complexity.time = "Approximately O(n^k), k > 2" :=
  ⟨(claim_C2 [] seg0 mRecDemo).1 (by decide),
   ((claim_C2 [] seg0 mLin).2 (by decide)).1 (Or.inr (by decide)),
   ((claim_C2 [] seg0 mQuad).2 (by decide)).2.1 (by decide),
   ((claim_C2 [] seg0 mCube).2 (by decide)).2.2 (by decide)⟩

/-- Claim C3: no two undefined-reference findings of one run share the same
`(name, line)` pair.  The key is stated on `(why, line)`; the message `why`
determines the flagged name injectively (second conjunct), so distinct keys
are exactly distinct `(name, line)` pairs. -/
theorem claim_C3 (b : List String) (seg : Seg) (m : Module) :
    ((uvIssues b seg m).map (fun i => (i.why, i.line))).Nodup ∧
    ∀ n₁ n₂ : String, whyMsg n₁ = whyMsg n₂ → n₁ = n₂ := by
  constructor
  · exact (uvStmts_pres UVInv primPres_UVInv b seg m initUVState initUVState_inv).1
  · exact fun _ _ h => whyMsg_injective h

/-- Witness for C3 on a module reading the same undefined name twice on one
line. -/
theorem claim_C3_witness :
    ((uvIssues [] seg0 mDedupDemo).map (fun i => (i.why, i.line))).Nodup ∧
    ("x" : String) = ("x") :=
  ⟨(claim_C3 [] seg0 mDedupDemo).1,
   (claim_C3 [] seg0 mDedupDemo).2 ("x") ("x") rfl⟩

/-- Claim C4 counterexample: a decorator that reads the function's own
parameter produces no undefined-reference finding, because the source walks
decorators inside the freshly pushed frame after registering the parameters —
not in the enclosing scope as the claim states. -/
theorem claim_C4_counterexample :
    uvIssues [] seg0
      [.funcDef ("f") ⟨[], [("p")], [], none, none⟩ [.passS 2]
        [.name ("p") .load 1] 1] = [] := by
  decide

/-- Claim C4 (amended): decorator and base-class expressions of a definition
are walked inside the new frame pushed for the definition — for functions
after the parameters are registered in it — so a name visible via the
definition's own parameters is NOT reported undefined when read in a
decorator. -/
theorem claim_C4_amended (b : List String) (seg : Seg) :
    (∀ (n : String) (fargs : FuncArgs) (body : List Stmt) (decos : List Expr)
        (line : Nat) (s : UVState),
        uvStmt b seg (.funcDef n fargs body decos line) s =
          popScope (uvStmts b seg body
            (uvExprs b seg decos (defineArgs fargs (pushScope (define n s)))))) ∧
    (∀ (n : String) (bases decos : List Expr) (body : List Stmt)
        (line : Nat) (s : UVState),
        uvStmt b seg (.classDef n bases decos body line) s =
          popScope (uvStmts b seg body
            (uvExprs b seg decos (uvExprs b seg bases (pushScope (define n s)))))) ∧
    (∀ (p n : String) (dline bline fline : Nat) (s : UVState), p ≠ "" →
        (uvStmt b seg
            (.funcDef n ⟨[], [p], [], none, none⟩ [.passS bline]
              [.name p .load dline] fline) s).issues = s.issues) := by
  refine ⟨fun _ _ _ _ _ _ => rfl, fun _ _ _ _ _ _ => rfl, ?_⟩
  intro p n dline bline fline s hp
  have hscope : (define p (pushScope (define n s))).scopes =
      [p] :: (define n s).scopes := by
    simp [define, pushScope, hp]
  have hdefd : isDefined (define p (pushScope (define n s))) p = true :=
    isDefined_of_mem_head hscope (List.mem_singleton.2 rfl)
  have hargs : defineArgs ⟨[], [p], [], none, none⟩ (pushScope (define n s)) =
      define p (pushScope (define n s)) := by
    simp [defineArgs]
  simp only [uvStmt, hargs, uvExprs, uvExpr, if_pos]
  rw [reportUndefined_of_defined hdefd]
  simp only [uvStmts, uvStmt]
  rw [popScope_issues, define_issues]
  show (pushScope (define n s)).issues = s.issues
  rw [show (pushScope (define n s)).issues = (define n s).issues from rfl,
    define_issues]

/-- Witness for the amended C4. -/
theorem claim_C4_witness :
    (uvStmt [] seg0
        (.funcDef ("g") ⟨[], [("p")], [], none, none⟩ [.passS 2]
          [.name ("p") .load 1] 1) initUVState).issues = initUVState.issues :=
  (claim_C4_amended [] seg0).2.2 ("p") ("g") 1 2 1 initUVState (by decide)

/-- Claim C5 counterexample: an equality comparison with the literal `None` as
its left operand is not flagged — the source only inspects the first
right-hand comparator — while the claim demands a finding whenever either
side is `None`. -/
theorem claim_C5_counterexample :
    rpExpr seg0 (.compare (.const .noneC 1) [.eq] [.name ("x") .load 1] 1) = [] := by
  decide

/-- Claim C5 (amended): for a comparison with exactly one operator, that
operator being equality or inequality, whose single right-hand comparator is
the literal `None`, the pattern detector emits exactly one finding of the
identity-vs-equality style kind, with severity `info`, at that node's line;
`None` appearing only as the left operand is not flagged. -/
theorem claim_C5_amended (seg : Seg) :
    (∀ (l : Expr) (op : CmpOp) (lc : Nat) (rest : List Expr) (line : Nat),
        op = CmpOp.eq ∨ op = CmpOp.notEq →
        rpExpr seg (.compare l [op] (.const .noneC lc :: rest) line) =
          noneCompareIssue seg (.compare l [op] (.const .noneC lc :: rest) line) line ::
            (rpExpr seg l ++ rpExprs seg (.const .noneC lc :: rest))) ∧
    (∀ (e : Expr) (line : Nat),
        (noneCompareIssue seg e line).severity = "info" ∧
        (noneCompareIssue seg e line).line = some line ∧
        (noneCompareIssue seg e line).type = "BestPractice") := by
  constructor
  · rintro l op lc rest line (rfl | rfl) <;> simp [rpExpr, isNoneCompare]
  · exact fun _ _ => ⟨rfl, rfl, rfl⟩

/-- Witness for the amended C5 at `x == None`. -/
theorem claim_C5_witness :
    rpExpr seg0 (.compare (.name ("x") .load 1) [.eq] [.const .noneC 1] 1) =
      noneCompareIssue seg0 (.compare (.name ("x") .load 1) [.eq] [.const .noneC 1] 1) 1 ::
        (rpExpr seg0 (.name ("x") .load 1) ++ rpExprs seg0 [.const .noneC 1]) :=
  (claim_C5_amended seg0).1 (.name ("x") .load 1) .eq 1 [] 1 (Or.inl rfl)

/-- Claim C6: every division, floor-division or modulo whose right operand is
a literal numeric constant equal to zero is flagged as a division-by-zero
finding with severity `warning`; `x / 1` and `x / y` with `y` a variable are
never flagged. -/
theorem claim_C6 (seg : Seg) :
    (∀ (l : Expr) (op : BinOpKind) (r : Expr) (lc line : Nat),
        (op = BinOpKind.div ∨ op = BinOpKind.floorDiv ∨ op = BinOpKind.mod) →
        (r = .const (.intC 0) lc ∨ r = .const (.floatC 0) lc) →
        rpExpr seg (.binOp l op r line) =
          divZeroIssue seg (.binOp l op r line) line ::
            (rpExpr seg l ++ rpExpr seg r)) ∧
    (∀ (x : Expr) (lc line : Nat),
        rpExpr seg (.binOp x .div (.const (.intC 1) lc) line) = rpExpr seg x) ∧
    (∀ (x : Expr) (y : String) (c : Ctx) (ly line : Nat),
        rpExpr seg (.binOp x .div (.name y c ly) line) = rpExpr seg x) ∧
    (∀ (e : Expr) (line : Nat),
        (divZeroIssue seg e line).severity = "warning" ∧
        (divZeroIssue seg e line).type = "ZeroDivisionError" ∧
        (divZeroIssue seg e line).line = some line) := by
  refine ⟨?_, ?_, ?_, fun _ _ => ⟨rfl, rfl, rfl⟩⟩
  · rintro l op r lc line (rfl | rfl | rfl) (rfl | rfl) <;>
      simp [rpExpr, isDivLike, _is_constant_zero]
  · intro x lc line
    simp [rpExpr, isDivLike, _is_constant_zero]
  · intro x y c ly line
    simp [rpExpr, isDivLike, _is_constant_zero]

/-- Witness for C6 at `x / 0`. -/
theorem claim_C6_witness :
    rpExpr seg0 (.binOp (.name ("x") .load 1) .div (.const (.intC 0) 1) 1) =
      divZeroIssue seg0 (.binOp (.name ("x") .load 1) .div (.const (.intC 0) 1) 1) 1 ::
        (rpExpr seg0 (.name ("x") .load 1) ++ rpExpr seg0 (.const (.intC 0) 1)) :=
  (claim_C6 seg0).1 (.name ("x") .load 1) .div (.const (.intC 0) 1) 1 1
    (Or.inl rfl) (Or.inl rfl)

/-- Claim C7: every `for` loop iterating over a literal integer constant is
flagged as a non-iterable-loop-target finding with severity `warning` at the
iterated expression's line; a `for` loop over a list literal is never flagged
by this matcher. -/
theorem claim_C7 (seg : Seg) :
    (∀ (target : Expr) (n : Int) (lc : Nat) (body orelse : List Stmt) (line : Nat),
        rpStmt seg (.forS target (.const (.intC n) lc) body orelse line) =
          intIterIssue seg (.const (.intC n) lc) lc ::
            (rpExpr seg target ++ rpStmts seg body ++ rpStmts seg orelse)) ∧
    (∀ (target : Expr) (elts : List Expr) (c : Ctx) (lc : Nat)
        (body orelse : List Stmt) (line : Nat),
        rpStmt seg (.forS target (.listLit elts c lc) body orelse line) =
          rpExpr seg target ++ rpExprs seg elts ++ rpStmts seg body ++
            rpStmts seg orelse) ∧
    (∀ (e : Expr) (line : Nat),
        (intIterIssue seg e line).severity = "warning" ∧
        (intIterIssue seg e line).type = "TypeError" ∧
        (intIterIssue seg e line).line = some line) := by
  refine ⟨?_, ?_, fun _ _ => ⟨rfl, rfl, rfl⟩⟩
  · intro target n lc body orelse line
    simp [rpStmt, isIntConstant, rpExpr, Expr.lineno, List.append_assoc]
  · intro target elts c lc body orelse line
    simp [rpStmt, isIntConstant, rpExpr, List.append_assoc]

/-- Claim C8: for a parsed input, the output findings are the
undefined-reference detector's findings followed by the pattern detector's
findings, with nothing contributed by the complexity estimator; both
aggregation levels are plain functions of their input. -/
theorem claim_C8 (b : List String) (seg : Seg) (m : Module) :
    (run_static_checks b seg m).issues = uvIssues b seg m ++ rpStmts seg m ∧
    (analyze_python_code b seg (Except.ok m)).issues =
      uvIssues b seg m ++ rpStmts seg m :=
  ⟨rfl, rfl⟩

/-- Claim C9: the scope stack always keeps at least one frame: push adds one
empty frame, pop removes the top frame unless it is the sole remaining frame
(then it is a no-op), define keeps the frame count, and a whole traversal
from any stack with at least one frame — in particular from the initial
module frame — ends with at least one frame. -/
theorem claim_C9 :
    (∀ s : UVState, (pushScope s).scopes = [] :: s.scopes) ∧
    (∀ s : UVState, s.scopes.length ≤ 1 → popScope s = s) ∧
    (∀ s : UVState, 1 < s.scopes.length → (popScope s).scopes = s.scopes.tail) ∧
    (∀ (n : String) (s : UVState), (define n s).scopes.length = s.scopes.length) ∧
    (∀ (b : List String) (seg : Seg) (m : Module) (s : UVState),
        0 < s.scopes.length → 0 < (uvStmts b seg m s).scopes.length) ∧
    (∀ (b : List String) (seg : Seg) (m : Module),
        0 < (uvStmts b seg m initUVState).scopes.length) := by
  refine ⟨fun _ => rfl, ?_, ?_, define_scopes_length, ?_, ?_⟩
  · intro s h
    unfold popScope
    rw [if_neg (by omega)]
  · intro s h
    unfold popScope
    rw [if_pos h]
  · exact fun b seg m s h =>
      uvStmts_pres (fun s => 0 < s.scopes.length) primPres_scopes b seg m s h
  · exact fun b seg m =>
      uvStmts_pres (fun s => 0 < s.scopes.length) primPres_scopes b seg m
        initUVState (by simp [initUVState])

/-- Witness for C9 at concrete stacks. -/
theorem claim_C9_witness :
    popScope initUVState = initUVState ∧
    (popScope (pushScope initUVState)).scopes = (pushScope initUVState).scopes.tail ∧
    0 < (uvStmts [] seg0 mLin initUVState).scopes.length :=
  ⟨claim_C9.2.1 initUVState (by decide),
   claim_C9.2.2.1 (pushScope initUVState) (by decide),
   claim_C9.2.2.2.2.1 [] seg0 mLin initUVState (by decide)⟩

/-- Claim C10: in the undefined-reference detector, plain and augmented
assignments register the target names in the top frame before the value
expression is walked; consequently `x = x + 1` and `x += x` produce no
undefined-reference finding for the right-hand-side read of `x`. -/
theorem claim_C10 (b : List String) (seg : Seg) :
    (∀ (targets : List Expr) (value : Expr) (line : Nat) (s : UVState),
        uvStmt b seg (.assign targets value line) s =
          uvExpr b seg value
            (targets.foldl (fun st t => addTargets (targetNames t) st) s)) ∧
    (∀ (target : Expr) (op : BinOpKind) (value : Expr) (line : Nat) (s : UVState),
        uvStmt b seg (.augAssign target op value line) s =
          uvExpr b seg value (addTargets (targetNames target) s)) ∧
    (∀ (x : String) (l1 l2 l3 l4 : Nat) (s : UVState), s.scopes ≠ [] →
        (uvStmt b seg (.assign [.name x .store l1]
            (.binOp (.name x .load l2) .add (.const (.intC 1) l3) l4) l1) s).issues
          = s.issues) ∧
    (∀ (x : String) (op : BinOpKind) (l1 l2 l3 : Nat) (s : UVState), s.scopes ≠ [] →
        (uvStmt b seg (.augAssign (.name x .store l1) op (.name x .load l2) l3) s).issues
          = s.issues) := by
  refine ⟨fun _ _ _ _ => rfl, fun _ _ _ _ _ => rfl, ?_, ?_⟩
  · intro x l1 l2 l3 l4 s hs
    obtain ⟨fr, rest, h⟩ := List.exists_cons_of_ne_nil hs
    have hadd : (addTargets [x] s).scopes = (x :: fr) :: rest := by
      simpa using @addTargets_scopes [x] s fr rest h
    have hdefd : isDefined (addTargets [x] s) x = true :=
      isDefined_of_mem_head hadd (List.mem_cons_self x fr)
    simp only [uvStmt, List.foldl_cons, List.foldl_nil, targetNames]
    simp only [uvExpr, if_pos]
    rw [reportUndefined_of_defined hdefd]
    rw [addTargets_issues]
  · intro x op l1 l2 l3 s hs
    obtain ⟨fr, rest, h⟩ := List.exists_cons_of_ne_nil hs
    have hadd : (addTargets [x] s).scopes = (x :: fr) :: rest := by
      simpa using @addTargets_scopes [x] s fr rest h
    have hdefd : isDefined (addTargets [x] s) x = true :=
      isDefined_of_mem_head hadd (List.mem_cons_self x fr)
    simp only [uvStmt, targetNames]
    simp only [uvExpr, if_pos]
    rw [reportUndefined_of_defined hdefd]
    rw [addTargets_issues]

/-- Witness for C10 on the initial state. -/
theorem claim_C10_witness :
    (uvStmt [] seg0 (.assign [.name ("x") .store 1]
        (.binOp (.name ("x") .load 1) .add (.const (.intC 1) 1) 1) 1)
        initUVState).issues = initUVState.issues ∧
    (uvStmt [] seg0 (.augAssign (.name ("x") .store 1) .add (.name ("x") .load 1) 1)
        initUVState).issues = initUVState.issues :=
  ⟨(claim_C10 [] seg0).2.2.1 ("x") 1 1 1 1 initUVState (by decide),
   (claim_C10 [] seg0).2.2.2 ("x") .add 1 1 1 initUVState (by decide)⟩

end PyTutor
